import Mathlib

/-!
# Verification of the postbox streaming MIME serializer

Shallow embedding of the `postbox` Go package: a streaming serializer that
renders an email envelope into an RFC 2822 / MIME byte stream.  Go byte
sequences are modelled as `List Nat` (each element a byte value `< 256`),
an `io.Writer` as explicit state carrying the trace of emitted events, the
`crypto/rand` randomness and the wall clock as injected parameters.
-/

namespace Postbox

/-- Byte sequence of an ASCII string literal (Go strings are byte sequences). -/
def bs (s : String) : List Nat := s.toList.map Char.toNat

/-- ASCII CR, from the source constant `CR`. -/
def CRb : List Nat := bs "\r"

/-- ASCII LF, from the source constant `LF`. -/
def LFb : List Nat := bs "\n"

/-- ASCII CR+LF, from the source constant `CRLF`. -/
def CRLFb : List Nat := CRb ++ LFb

/-- The `Encoding` constant `QuotedPrintable` (a Go string). -/
def quotedPrintableE : List Nat := bs "quoted-printable"

/-- The `Encoding` constant `Base64` (a Go string). -/
def base64E : List Nat := bs "base64"

/-- The `Encoding` constant `Unencoded` (a Go string, value `8bit`). -/
def unencodedE : List Nat := bs "8bit"

/-! ### Hex encoding (Go `fmt.Sprintf("%x", buf)`) -/

/-- Lower-case hex digit of a nibble, as in Go's `%x` formatting. -/
def hexDigit (n : Nat) : Nat := (bs "0123456789abcdef").getD n 0

/-- Lower-case hex encoding of a byte sequence, as in Go's `%x` formatting:
each byte becomes two hex digit characters. -/
def hexEncode : List Nat → List Nat
  | [] => []
  | b :: rest => hexDigit (b / 16) :: hexDigit (b % 16) :: hexEncode rest

/-- `RandomBoundary` with the 30 random bytes injected as an explicit input
(the `crypto/rand` source is modelled as an injected dependency): the
identifier is the hex encoding of the random bytes. -/
def randomBoundary (seed : List Nat) : List Nat := hexEncode seed

/-! ### Base64 (Go `encoding/base64`, `StdEncoding` with padding)

`Part.Write` pipes the source through `base64.NewEncoder(base64.StdEncoding,
writer)` via `io.Copy` and then calls `encoder.Close()`, which flushes the
carry buffer and emits padding; the bytes reaching the writer are exactly the
standard padded base64 encoding of the whole source. -/

/-- Character (byte value) of a base64 sextet in the standard alphabet. -/
def b64Digit (n : Nat) : Nat :=
  (bs "ABCDEFGHIJKLMNOPQRSTUVWXYZabcdefghijklmnopqrstuvwxyz0123456789+/").getD n 0

/-- The base64 padding character. -/
def padB : Nat := 61

/-- Standard padded base64 encoding of a byte sequence, the byte stream
produced by Go's `base64.NewEncoder` + `Close` over the full source. -/
def b64EncodeBytes : List Nat → List Nat
  | a :: b :: c :: rest =>
      b64Digit (a / 4) :: b64Digit (a % 4 * 16 + b / 16) ::
      b64Digit (b % 16 * 4 + c / 64) :: b64Digit (c % 64) :: b64EncodeBytes rest
  | [a, b] => [b64Digit (a / 4), b64Digit (a % 4 * 16 + b / 16), b64Digit (b % 16 * 4), padB]
  | [a] => [b64Digit (a / 4), b64Digit (a % 4 * 16), padB, padB]
  | [] => []

/-- Index of a character in the standard base64 alphabet (used by the
round-trip decoder). -/
def b64Index (c : Nat) : Nat :=
  (bs "ABCDEFGHIJKLMNOPQRSTUVWXYZabcdefghijklmnopqrstuvwxyz0123456789+/").indexOf c

/-- RFC 4648 base64 decoder for padded input (the decoding direction used to
state the round-trip property; `none` on malformed grouping). -/
def b64DecodeBytes : List Nat → Option (List Nat)
  | [] => some []
  | c1 :: c2 :: c3 :: c4 :: rest =>
      if c4 = padB then
        if rest = [] then
          if c3 = padB then
            some [b64Index c1 * 4 + b64Index c2 / 16]
          else
            some [b64Index c1 * 4 + b64Index c2 / 16,
                  b64Index c2 % 16 * 16 + b64Index c3 / 4]
        else none
      else
        match b64DecodeBytes rest with
        | some ds =>
            some ((b64Index c1 * 4 + b64Index c2 / 16) ::
                  (b64Index c2 % 16 * 16 + b64Index c3 / 4) ::
                  (b64Index c3 % 4 * 64 + b64Index c4) :: ds)
        | none => none
  | _ => none

/-! ### Quoted-printable (Go `mime/quotedprintable`)

`Part.Write` pipes the source through `quotedprintable.NewReader(p.Reader)`
— the *decoding* direction — and copies the result to the writer. -/

/-- Value of a quoted-printable hex digit byte (Go's `fromHex`, which also
accepts lower-case digits). -/
def qpFromHex (b : Nat) : Option Nat :=
  if 48 ≤ b ∧ b ≤ 57 then some (b - 48)
  else if 65 ≤ b ∧ b ≤ 70 then some (b - 65 + 10)
  else if 97 ≤ b ∧ b ≤ 102 then some (b - 97 + 10)
  else none

/-- Byte transformation of Go's `mime/quotedprintable` Reader (the decoding
direction): `=XY` hex escapes become the escaped byte, soft line breaks
`=CRLF` / `=LF` are removed, and other bytes pass through.  This models the
Reader on well-formed input (on malformed escapes Go's Reader errors where
this model is lenient and passes the bytes through); it also serves as the
RFC 2045 decoding used to state the round-trip property. -/
def qpDecodeBytes : List Nat → List Nat
  | 61 :: 13 :: 10 :: rest => qpDecodeBytes rest
  | 61 :: 10 :: rest => qpDecodeBytes rest
  | 61 :: b1 :: b2 :: rest =>
      match qpFromHex b1, qpFromHex b2 with
      | some h1, some h2 => (h1 * 16 + h2) :: qpDecodeBytes rest
      | _, _ => 61 :: qpDecodeBytes (b1 :: b2 :: rest)
  | b :: rest => b :: qpDecodeBytes rest
  | [] => []

/-! ### Data model -/

/-- `Part` from the source: content type, encoding selector, and the byte
source (`io.Reader`), modelled as the full byte sequence the reader yields. -/
structure Part where
  ContentType : List Nat
  Encoding : List Nat
  Reader : List Nat
deriving DecidableEq

/-- `File` from the source (declared but not consumed by the write path);
the `CopyFunc` field is not exercised and is omitted. -/
structure File where
  Name : List Nat
  Header : List (List Nat × List (List Nat))
deriving DecidableEq

/-- `Envelope` from the source.  `time.Time` is modelled as a `Nat` whose
zero value is `0` (`IsZero`), and `Headers` values appear as association
lists of field name and values. -/
structure Envelope where
  Date : Nat
  From : List Nat
  Sender : List Nat
  ReplyTo : List Nat
  To : List (List Nat)
  Cc : List (List Nat)
  Subject : List Nat
  Parts : List Part
  Embedded : List File
  Attachments : List File
  Charset : List Nat
deriving DecidableEq

/-! ### Success-path write traces (pure embedding)

A Go `map[string][]string` has no inherent iteration order; a `Headers`
value together with one iteration order is modelled as an association list,
and map literals are listed in their source order.  Each element of a chunk
list is the byte sequence of one `writer.Write` call (the `io.Copy` of a
joined value string counts as one call). -/

/-- Go's `strings.Join` on byte sequences. -/
def joinSep (sep : List Nat) : List (List Nat) → List Nat
  | [] => []
  | [v] => v
  | v :: vs => v ++ sep ++ joinSep sep vs

/-- Write calls issued by one iteration of the `Headers.Write` loop for one
field: the name, then either `":" + CRLF` (no values) or `": "`, the values
joined with `"; "`, and `CRLF`. -/
def headerFieldChunks : List Nat × List (List Nat) → List (List Nat)
  | (property, values) =>
    if values = [] then [property, bs ":" ++ CRLFb]
    else [property, bs ": ", joinSep (bs "; ") values, CRLFb]

/-- Write calls issued by `Headers.Write` over the fields in iteration
order (success path). -/
def headersChunks : List (List Nat × List (List Nat)) → List (List Nat)
  | [] => []
  | f :: rest => headerFieldChunks f ++ headersChunks rest

/-- The full line `Headers.Write` emits for one field (its write calls
concatenated). -/
def headerLine (f : List Nat × List (List Nat)) : List Nat :=
  (headerFieldChunks f).flatten

/-- Body transformation performed by the `switch p.Encoding` in
`Part.Write`: quoted-printable pipes the source through
`quotedprintable.NewReader` (the decoding direction), base64 streams
through `base64.NewEncoder` and flushes it, and the default copies the
bytes unchanged. -/
def encodeBody (enc : List Nat) (src : List Nat) : List Nat :=
  if enc = quotedPrintableE then qpDecodeBytes src
  else if enc = base64E then b64EncodeBytes src
  else src

/-- Write calls issued by `Part.Write` (success path): the part headers, a
blank line, the transformed body, and a trailing blank line. -/
def partChunks (p : Part) (charset : List Nat) : List (List Nat) :=
  headersChunks [(bs "Content-Type", [p.ContentType, bs "charset=" ++ charset]),
                 (bs "Content-Transfer-Encoding", [p.Encoding])]
  ++ [CRLFb] ++ [encodeBody p.Encoding p.Reader] ++ [CRLFb]

/-- The single write call issued by `Boundary.Mark`. -/
def markChunk (id : List Nat) : List Nat := bs "--" ++ id ++ CRLFb

/-- The single write call issued by `Boundary.End`. -/
def endChunk (id : List Nat) : List Nat := bs "--" ++ id ++ bs "--" ++ CRLFb ++ CRLFb

/-- The joined-values write call of a boundary declaration header: the MIME
subtype and `boundary=<id>` joined with `"; "`. -/
def boundaryDeclChunk (mime : String) (id : List Nat) : List Nat :=
  joinSep (bs "; ") [bs mime, bs "boundary=" ++ id]

/-- Write calls issued by `NewBoundary` (success path): the `Content-Type`
header with the subtype and `boundary=<id>` values, then a blank line. -/
def newBoundaryChunks (mime : String) (id : List Nat) : List (List Nat) :=
  headersChunks [(bs "Content-Type", [bs mime, bs "boundary=" ++ id])] ++ [CRLFb]

/-- The top-level header map built by `Envelope.Write`, in source literal
order, with the already-formatted date string. -/
def envHeaders (e : Envelope) (dateStr : List Nat) : List (List Nat × List (List Nat)) :=
  [(bs "Date", [dateStr]),
   (bs "From", [e.From]),
   (bs "To", e.To),
   (bs "Cc", e.Cc),
   (bs "Reply-To", [e.ReplyTo]),
   (bs "Subject", [e.Subject]),
   (bs "Mime-Version", [bs "1.0"])]

/-- The envelope value after `Envelope.Write`'s date defaulting (the
mutation of `e.Date` through the pointer receiver at the top of `Write`:
a zero date is replaced by the current time). -/
def envAfterWrite (now : Nat) (e : Envelope) : Envelope :=
  if e.Date = 0 then { e with Date := now } else e

/-- Write calls issued by the `for _, part := range e.Parts` loop of
`Envelope.Write` (success path): a mark on the alternative boundary, then
the part's chunks, for each part in order. -/
def partsChunks (ida charset : List Nat) : List Part → List (List Nat)
  | [] => []
  | p :: rest => markChunk ida :: (partChunks p charset ++ partsChunks ida charset rest)

/-- Write calls issued by `Envelope.Write` (success path), with the wall
clock `now`, the date formatter `fmtDate` (Go `time.Time.Format` with
`time.RFC1123Z`), and the three 30-byte random draws of the `NewBoundary`
calls injected as parameters. -/
def envChunks (fmtDate : Nat → List Nat) (now : Nat) (s1 s2 s3 : List Nat)
    (e : Envelope) : List (List Nat) :=
  let e' := envAfterWrite now e
  let idm := randomBoundary s1
  let idr := randomBoundary s2
  let ida := randomBoundary s3
  headersChunks (envHeaders e' (fmtDate e'.Date))
  ++ newBoundaryChunks "multipart/mixed" idm ++ [markChunk idm]
  ++ newBoundaryChunks "multipart/related" idr ++ [markChunk idr]
  ++ newBoundaryChunks "multipart/alternative" ida
  ++ partsChunks ida e'.Charset e'.Parts
  ++ [endChunk ida, endChunk idr, endChunk idm]

/-! ### State-passing embedding with a fallible output stream

An `io.WriteCloser` is modelled as a behaviour (`OutStream`) plus the
run-time state of one write: the number of `Write` calls made so far and
the trace of performed actions.  `failFrom = some k` makes every `Write`
call from the `k`-th one on fail (a broken stream); `failFrom = none` never
fails.  A failed `Write` emits nothing. -/

/-- Errors surfaced by the embedded functions: a failed `Write` on the
stream, or a failed `Close`. -/
inductive GoErr
  | writeErr
  | closeErr
deriving DecidableEq

/-- One action performed on the output stream. -/
inductive Ev
  | write (chunk : List Nat)
  | close
deriving DecidableEq

/-- Behaviour of the output stream: from which `Write` call on writes fail,
and whether `Close` succeeds. -/
structure OutStream where
  failFrom : Option Nat
  closeOk : Bool
deriving DecidableEq

/-- Run-time state of the output stream during one envelope write. -/
structure WState where
  stream : OutStream
  calls : Nat
  events : List Ev
deriving DecidableEq

/-- Fresh state of a stream: no calls made, nothing written. -/
def mkState (s : OutStream) : WState :=
  { stream := s, calls := 0, events := [] }

/-- Whether the next `Write` call on the stream succeeds. -/
def wOk (st : WState) : Bool :=
  match st.stream.failFrom with
  | none => true
  | some k => st.calls < k

/-- One `writer.Write` call: on success the chunk is appended to the trace;
on failure nothing is written.  Returns the success flag (Go: `err == nil`). -/
def writeB (st : WState) (chunk : List Nat) : WState × Bool :=
  if wOk st then
    ({ st with calls := st.calls + 1, events := st.events ++ [Ev.write chunk] }, true)
  else
    ({ st with calls := st.calls + 1 }, false)

/-- The `writer.Close()` call: records the close and reports the stream's
close result. -/
def closeB (st : WState) : WState × Option GoErr :=
  ({ st with events := st.events ++ [Ev.close] },
   if st.stream.closeOk then none else some GoErr.closeErr)

/-- The stream with failures removed (what the same run would have written
had no `Write` failed); used to compare a failing run with the successful
one. -/
def unfail (st : WState) : WState :=
  { st with stream := { st.stream with failFrom := none } }

/-- One iteration of the `Headers.Write` loop: write the field name, then
either `":" + CRLF` (no values) or `": "`, the joined values (`io.Copy`
from a `strings.Reader`), and `CRLF`; each failed write returns the error
immediately. -/
def headerFieldWriteE (st : WState) (f : List Nat × List (List Nat)) :
    WState × Option GoErr :=
  let r1 := writeB st f.1
  if !r1.2 then (r1.1, some GoErr.writeErr) else
  if f.2 = [] then
    let r2 := writeB r1.1 (bs ":" ++ CRLFb)
    if !r2.2 then (r2.1, some GoErr.writeErr) else (r2.1, none)
  else
    let r2 := writeB r1.1 (bs ": ")
    if !r2.2 then (r2.1, some GoErr.writeErr) else
    let r3 := writeB r2.1 (joinSep (bs "; ") f.2)
    if !r3.2 then (r3.1, some GoErr.writeErr) else
    let r4 := writeB r3.1 CRLFb
    if !r4.2 then (r4.1, some GoErr.writeErr) else (r4.1, none)

/-- `Headers.Write`: iterate over the fields (in the given map iteration
order), aborting on the first failed write. -/
def headersWriteE (st : WState) : List (List Nat × List (List Nat)) → WState × Option GoErr
  | [] => (st, none)
  | f :: rest =>
    match headerFieldWriteE st f with
    | (st1, none) => headersWriteE st1 rest
    | (st1, some e) => (st1, some e)

/-- `Part.Write`: the part headers, a blank line, the transformed body
(one copy), and a trailing blank line, aborting on the first failure. -/
def partWriteE (st : WState) (p : Part) (charset : List Nat) : WState × Option GoErr :=
  match headersWriteE st [(bs "Content-Type", [p.ContentType, bs "charset=" ++ charset]),
                          (bs "Content-Transfer-Encoding", [p.Encoding])] with
  | (st1, some e) => (st1, some e)
  | (st1, none) =>
    let r1 := writeB st1 CRLFb
    if !r1.2 then (r1.1, some GoErr.writeErr) else
    let r2 := writeB r1.1 (encodeBody p.Encoding p.Reader)
    if !r2.2 then (r2.1, some GoErr.writeErr) else
    let r3 := writeB r2.1 CRLFb
    if !r3.2 then (r3.1, some GoErr.writeErr) else (r3.1, none)

/-- `NewBoundary` with the boundary identifier injected: writes the
`Content-Type` header with the subtype and `boundary=<id>` values and a
blank line, discarding both results (the source ignores these errors). -/
def newBoundaryE (st : WState) (mime : String) (id : List Nat) : WState :=
  let r1 := headersWriteE st [(bs "Content-Type", [bs mime, bs "boundary=" ++ id])]
  let r2 := writeB r1.1 CRLFb
  r2.1

/-- `Boundary.Mark`: writes `--<id>CRLF` and returns the write's error. -/
def markE (st : WState) (id : List Nat) : WState × Option GoErr :=
  let r := writeB st (markChunk id)
  if r.2 then (r.1, none) else (r.1, some GoErr.writeErr)

/-- Name for `Boundary.End` in the embedding: writes `--<id>--CRLF CRLF`
and returns the write's error. -/
def endE (st : WState) (id : List Nat) : WState × Option GoErr :=
  let r := writeB st (endChunk id)
  if r.2 then (r.1, none) else (r.1, some GoErr.writeErr)

/-- The `for _, part := range e.Parts` loop of `Envelope.Write`: mark the
alternative boundary and write the part, aborting on the first error. -/
def envPartsWriteE (st : WState) (ida charset : List Nat) : List Part → WState × Option GoErr
  | [] => (st, none)
  | p :: rest =>
    match markE st ida with
    | (st1, some e) => (st1, some e)
    | (st1, none) =>
      match partWriteE st1 p charset with
      | (st2, some e) => (st2, some e)
      | (st2, none) => envPartsWriteE st2 ida charset rest

/-- `Envelope.Write` with the wall clock, the date formatter and the three
random draws injected: defaults the date (mutating the envelope, which is
returned), writes the top-level headers, opens and marks the mixed and
related boundaries, opens the alternative boundary, writes the parts, ends
the three boundaries in reverse order, and finally closes the stream,
aborting on the first error. -/
def envelopeWriteE (fmtDate : Nat → List Nat) (now : Nat) (s1 s2 s3 : List Nat)
    (e : Envelope) (st : WState) : Envelope × WState × Option GoErr :=
  let e' := envAfterWrite now e
  match headersWriteE st (envHeaders e' (fmtDate e'.Date)) with
  | (st1, some err) => (e', st1, some err)
  | (st1, none) =>
    let idm := randomBoundary s1
    let st2 := newBoundaryE st1 "multipart/mixed" idm
    match markE st2 idm with
    | (st3, some err) => (e', st3, some err)
    | (st3, none) =>
      let idr := randomBoundary s2
      let st4 := newBoundaryE st3 "multipart/related" idr
      match markE st4 idr with
      | (st5, some err) => (e', st5, some err)
      | (st5, none) =>
        let ida := randomBoundary s3
        let st6 := newBoundaryE st5 "multipart/alternative" ida
        match envPartsWriteE st6 ida e'.Charset e'.Parts with
        | (st7, some err) => (e', st7, some err)
        | (st7, none) =>
          match endE st7 ida with
          | (st8, some err) => (e', st8, some err)
          | (st8, none) =>
            match endE st8 idr with
            | (st9, some err) => (e', st9, some err)
            | (st9, none) =>
              match endE st9 idm with
              | (st10, some err) => (e', st10, some err)
              | (st10, none) =>
                let r := closeB st10
                (e', r.1, r.2)

/-- Sample fixtures used by concrete witnesses. -/
def samplePart : Part := { ContentType := bs "t", Encoding := bs "8bit", Reader := bs "x" }

/-- A sample envelope: zero date, empty Cc, one unencoded part. -/
def sampleEnv : Envelope :=
  { Date := 0, From := bs "f", Sender := [], ReplyTo := [], To := [], Cc := [],
    Subject := [], Parts := [samplePart], Embedded := [], Attachments := [],
    Charset := bs "c" }

/-- A sample date formatter (the RFC 1123 with numeric zone rendering of a
fixed instant). -/
def sampleFmtDate : Nat → List Nat := fun _ => bs "Tue, 10 Nov 2009 23:00:00 +0100"

/-- Sample 30-byte random draws for the three boundaries. -/
def seedA : List Nat := List.replicate 30 0

/-- Second sample 30-byte random draw. -/
def seedB : List Nat := List.replicate 30 1

/-- Third sample 30-byte random draw. -/
def seedC : List Nat := List.replicate 30 2

/-- A stream whose writes and close always succeed. -/
def sampleStream : OutStream := { failFrom := none, closeOk := true }

/-- A stream whose writes fail from the first call on. -/
def failStream : OutStream := { failFrom := some 0, closeOk := true }

/-- A stream whose writes fail from the third call on. -/
def failMidStream : OutStream := { failFrom := some 2, closeOk := true }

/-- The delimiter chunks of the three boundaries drawn from the seeds
`s1`, `s2`, `s3`: the three declaration value chunks and the mark and
close-marker chunks (the chunks whose occurrence counts the structural
claim is about). -/
def specialChunks (s1 s2 s3 : List Nat) : List (List Nat) :=
  [boundaryDeclChunk "multipart/mixed" (randomBoundary s1),
   boundaryDeclChunk "multipart/related" (randomBoundary s2),
   boundaryDeclChunk "multipart/alternative" (randomBoundary s3),
   markChunk (randomBoundary s1), markChunk (randomBoundary s2),
   markChunk (randomBoundary s3),
   endChunk (randomBoundary s1), endChunk (randomBoundary s2),
   endChunk (randomBoundary s3)]

/-- Concatenation of the write chunks: the byte stream that reaches the
destination. -/
def flattenChunks : List (List Nat) → List Nat
  | [] => []
  | c :: rest => c ++ flattenChunks rest

/-- Number of positions of `l` at which `pat` occurs as a contiguous
subsequence (used for the "appears exactly once" properties). -/
def countSub (pat : List Nat) : List Nat → Nat
  | [] => if List.isPrefixOf pat [] then 1 else 0
  | b :: rest => (if List.isPrefixOf pat (b :: rest) then 1 else 0) + countSub pat rest

/-- The hex alphabet emitted by Go's `%x` formatting. -/
def hexAlphabet : List Nat := bs "0123456789abcdef"

/-! ## Helper lemmas -/

/-- Each base64 alphabet character decodes back to its sextet. -/
theorem b64_index_digit : ∀ n, n < 64 → b64Index (b64Digit n) = n := by decide

/-- No base64 alphabet character is the padding character. -/
theorem b64_digit_ne_pad : ∀ n, n < 64 → b64Digit n ≠ padB := by decide

/-- Base64 round-trip on byte sequences: decoding the padded streaming
encoding recovers the source, for any source length. -/
theorem b64_roundtrip : ∀ l : List Nat, (∀ b ∈ l, b < 256) →
    b64DecodeBytes (b64EncodeBytes l) = some l := by
  intro l
  induction l using b64EncodeBytes.induct with
  | case1 a b c rest ih =>
    intro h
    have ha : a < 256 := h a (by simp)
    have hb : b < 256 := h b (by simp)
    have hc : c < 256 := h c (by simp)
    simp only [b64EncodeBytes, b64DecodeBytes]
    rw [if_neg (b64_digit_ne_pad _ (by omega))]
    rw [ih (fun x hx => h x (by simp [hx]))]
    simp only [Option.some.injEq, List.cons.injEq]
    rw [b64_index_digit _ (by omega), b64_index_digit _ (by omega),
        b64_index_digit _ (by omega), b64_index_digit _ (by omega)]
    refine ⟨by omega, by omega, by omega, trivial⟩
  | case2 a b =>
    intro h
    have ha : a < 256 := h a (by simp)
    have hb : b < 256 := h b (by simp)
    have h3 : b64Digit (b % 16 * 4) ≠ padB := b64_digit_ne_pad _ (by omega)
    simp only [b64EncodeBytes, b64DecodeBytes, if_true, if_neg h3,
      Option.some.injEq, List.cons.injEq]
    rw [b64_index_digit _ (by omega), b64_index_digit _ (by omega),
        b64_index_digit _ (by omega)]
    refine ⟨by omega, by omega, trivial⟩
  | case3 a =>
    intro h
    have ha : a < 256 := h a (by simp)
    simp only [b64EncodeBytes, b64DecodeBytes, if_true,
      Option.some.injEq, List.cons.injEq]
    rw [b64_index_digit _ (by omega), b64_index_digit _ (by omega)]
    refine ⟨by omega, trivial⟩
  | case4 =>
    intro _
    rfl

/-- Hex encoding doubles the length. -/
theorem hexEncode_length : ∀ l : List Nat, (hexEncode l).length = 2 * l.length := by
  intro l
  induction l with
  | nil => rfl
  | cons b rest ih => simp [hexEncode, ih]; omega

/-- Hex digits of nibbles are distinct. -/
theorem hexDigit_inj : ∀ a, a < 16 → ∀ b, b < 16 → hexDigit a = hexDigit b → a = b := by
  decide

/-- Hex encoding is injective on byte sequences. -/
theorem hexEncode_inj : ∀ l1 l2 : List Nat, (∀ b ∈ l1, b < 256) → (∀ b ∈ l2, b < 256) →
    hexEncode l1 = hexEncode l2 → l1 = l2 := by
  intro l1
  induction l1 with
  | nil =>
    intro l2 _ _ h
    cases l2 with
    | nil => rfl
    | cons b rest => simp [hexEncode] at h
  | cons a rest ih =>
    intro l2 h1 h2 h
    cases l2 with
    | nil => simp [hexEncode] at h
    | cons b rest2 =>
      simp only [hexEncode, List.cons.injEq] at h
      have ha : a < 256 := h1 a (by simp)
      have hb : b < 256 := h2 b (by simp)
      have e1 : a / 16 = b / 16 := hexDigit_inj _ (by omega) _ (by omega) h.1
      have e2 : a % 16 = b % 16 := hexDigit_inj _ (by omega) _ (by omega) h.2.1
      have : a = b := by omega
      subst this
      rw [ih rest2 (fun x hx => h1 x (by simp [hx])) (fun x hx => h2 x (by simp [hx])) h.2.2]

/-- Hex digits of nibbles lie in the hex alphabet. -/
theorem hexDigit_mem : ∀ n, n < 16 → hexDigit n ∈ hexAlphabet := by decide

/-- Every character of a hex encoding is in the hex alphabet. -/
theorem hexEncode_mem : ∀ l : List Nat, (∀ b ∈ l, b < 256) →
    ∀ c ∈ hexEncode l, c ∈ hexAlphabet := by
  intro l
  induction l with
  | nil => intro _ c hc; simp [hexEncode] at hc
  | cons b rest ih =>
    intro h c hc
    have hb : b < 256 := h b (by simp)
    simp only [hexEncode, List.mem_cons] at hc
    rcases hc with hc | hc | hc
    · subst hc; exact hexDigit_mem _ (by omega)
    · subst hc; exact hexDigit_mem _ (by omega)
    · exact ih (fun x hx => h x (by simp [hx])) c hc

/-- A never-failing write appends its chunk and succeeds. -/
theorem writeB_nofail (st : WState) (c : List Nat) (h : st.stream.failFrom = none) :
    writeB st c =
      ({ st with calls := st.calls + 1, events := st.events ++ [Ev.write c] }, true) := by
  simp [writeB, wOk, h]

/-- On a never-failing stream, one header field emits exactly its chunks
(one write call per chunk) and no error. -/
theorem headerFieldWriteE_nofail (st : WState) (f : List Nat × List (List Nat))
    (h : st.stream.failFrom = none) :
    headerFieldWriteE st f =
      ({ st with
          calls := st.calls + (headerFieldChunks f).length,
          events := st.events ++ (headerFieldChunks f).map Ev.write }, none) := by
  obtain ⟨name, vals⟩ := f
  by_cases hf : vals = []
  · simp [headerFieldWriteE, writeB, wOk, h, headerFieldChunks, hf]
  · simp [headerFieldWriteE, writeB, wOk, h, headerFieldChunks, hf]

/-- On a never-failing stream, `Headers.Write` emits exactly its chunks and
no error. -/
theorem headersWriteE_nofail : ∀ (hs : List (List Nat × List (List Nat))) (st : WState),
    st.stream.failFrom = none →
    headersWriteE st hs =
      ({ st with
          calls := st.calls + (headersChunks hs).length,
          events := st.events ++ (headersChunks hs).map Ev.write }, none) := by
  intro hs
  induction hs with
  | nil =>
    intro st h
    simp [headersWriteE, headersChunks]
  | cons f rest ih =>
    intro st h
    simp only [headersWriteE, headerFieldWriteE_nofail, ih, h]
    simp [headersChunks, List.append_assoc]
    omega

/-- On a never-failing stream, `Part.Write` emits exactly its chunks and no
error. -/
theorem partWriteE_nofail (st : WState) (p : Part) (charset : List Nat)
    (h : st.stream.failFrom = none) :
    partWriteE st p charset =
      ({ st with
          calls := st.calls + (partChunks p charset).length,
          events := st.events ++ (partChunks p charset).map Ev.write }, none) := by
  simp only [partWriteE, headersWriteE_nofail, h]
  simp [writeB, wOk, h, partChunks, List.append_assoc]
  omega

/-- On a never-failing stream, `NewBoundary` emits exactly its chunks. -/
theorem newBoundaryE_nofail (st : WState) (mime : String) (id : List Nat)
    (h : st.stream.failFrom = none) :
    newBoundaryE st mime id =
      { st with
         calls := st.calls + (newBoundaryChunks mime id).length,
         events := st.events ++ (newBoundaryChunks mime id).map Ev.write } := by
  simp only [newBoundaryE, headersWriteE_nofail, h]
  simp [writeB, wOk, h, newBoundaryChunks, List.append_assoc]
  omega

/-- On a never-failing stream, `Boundary.Mark` emits its mark and no error. -/
theorem markE_nofail (st : WState) (id : List Nat) (h : st.stream.failFrom = none) :
    markE st id =
      ({ st with
          calls := st.calls + 1,
          events := st.events ++ [Ev.write (markChunk id)] }, none) := by
  simp [markE, writeB, wOk, h]

/-- On a never-failing stream, `Boundary.End` emits its close marker and no
error. -/
theorem endE_nofail (st : WState) (id : List Nat) (h : st.stream.failFrom = none) :
    endE st id =
      ({ st with
          calls := st.calls + 1,
          events := st.events ++ [Ev.write (endChunk id)] }, none) := by
  simp [endE, writeB, wOk, h]

/-- On a never-failing stream, the parts loop emits exactly its chunks and
no error. -/
theorem envPartsWriteE_nofail : ∀ (ps : List Part) (st : WState) (ida charset : List Nat),
    st.stream.failFrom = none →
    envPartsWriteE st ida charset ps =
      ({ st with
          calls := st.calls + (partsChunks ida charset ps).length,
          events := st.events ++ (partsChunks ida charset ps).map Ev.write }, none) := by
  intro ps
  induction ps with
  | nil =>
    intro st ida charset h
    simp [envPartsWriteE, partsChunks]
  | cons p rest ih =>
    intro st ida charset h
    simp only [envPartsWriteE, markE_nofail, partWriteE_nofail, ih, h]
    simp [partsChunks, List.append_assoc]
    omega

/-- On a never-failing stream, `Envelope.Write` returns the date-defaulted
envelope, emits exactly the pure chunk trace followed by the close as its
final action, and returns the close's result. -/
theorem envelopeWriteE_nofail (fd : Nat → List Nat) (now : Nat) (s1 s2 s3 : List Nat)
    (e : Envelope) (st : WState) (h : st.stream.failFrom = none) :
    envelopeWriteE fd now s1 s2 s3 e st =
      (envAfterWrite now e,
       { st with
          calls := st.calls + (envChunks fd now s1 s2 s3 e).length,
          events := st.events ++ (envChunks fd now s1 s2 s3 e).map Ev.write ++ [Ev.close] },
       if st.stream.closeOk then none else some GoErr.closeErr) := by
  simp only [envelopeWriteE, headersWriteE_nofail, newBoundaryE_nofail, markE_nofail,
    endE_nofail, envPartsWriteE_nofail, closeB, h]
  simp [envChunks, List.append_assoc]
  omega

/-! ### No `close` is recorded by the write-only operations -/

/-- A `Write` call never records a close. -/
theorem count_close_writeB (st : WState) (c : List Nat) :
    ((writeB st c).1.events).count Ev.close = st.events.count Ev.close := by
  simp only [writeB]
  split <;> simp

/-- One header field records no close. -/
theorem count_close_headerField (st : WState) (f : List Nat × List (List Nat)) :
    ((headerFieldWriteE st f).1.events).count Ev.close = st.events.count Ev.close := by
  simp only [headerFieldWriteE]
  repeat' split
  all_goals simp [count_close_writeB]

/-- `Headers.Write` records no close. -/
theorem count_close_headers : ∀ (hs : List (List Nat × List (List Nat))) (st : WState),
    ((headersWriteE st hs).1.events).count Ev.close = st.events.count Ev.close := by
  intro hs
  induction hs with
  | nil => intro st; rfl
  | cons f rest ih =>
    intro st
    simp only [headersWriteE]
    split
    next st1 heq =>
      rw [ih st1]
      have h0 := count_close_headerField st f
      rw [heq] at h0
      simpa using h0
    next st1 err heq =>
      have h0 := count_close_headerField st f
      rw [heq] at h0
      simpa using h0

/-- `Part.Write` records no close. -/
theorem count_close_part (st : WState) (p : Part) (charset : List Nat) :
    ((partWriteE st p charset).1.events).count Ev.close = st.events.count Ev.close := by
  simp only [partWriteE]
  split
  next st1 err heq =>
    have h0 := count_close_headers
      [(bs "Content-Type", [p.ContentType, bs "charset=" ++ charset]),
       (bs "Content-Transfer-Encoding", [p.Encoding])] st
    rw [heq] at h0
    simpa using h0
  next st1 heq =>
    have h0 := count_close_headers
      [(bs "Content-Type", [p.ContentType, bs "charset=" ++ charset]),
       (bs "Content-Transfer-Encoding", [p.Encoding])] st
    rw [heq] at h0
    repeat' split
    all_goals simp [count_close_writeB]
    all_goals simpa using h0

/-- `NewBoundary` records no close. -/
theorem count_close_newBoundary (st : WState) (mime : String) (id : List Nat) :
    ((newBoundaryE st mime id).events).count Ev.close = st.events.count Ev.close := by
  simp only [newBoundaryE]
  rw [count_close_writeB]
  exact count_close_headers _ st

/-- `Boundary.Mark` records no close. -/
theorem count_close_mark (st : WState) (id : List Nat) :
    ((markE st id).1.events).count Ev.close = st.events.count Ev.close := by
  simp only [markE]
  split <;> simp [count_close_writeB]

/-- `Boundary.End` records no close. -/
theorem count_close_end (st : WState) (id : List Nat) :
    ((endE st id).1.events).count Ev.close = st.events.count Ev.close := by
  simp only [endE]
  split <;> simp [count_close_writeB]

/-- The parts loop records no close. -/
theorem count_close_parts : ∀ (ps : List Part) (st : WState) (ida charset : List Nat),
    ((envPartsWriteE st ida charset ps).1.events).count Ev.close = st.events.count Ev.close := by
  intro ps
  induction ps with
  | nil => intro st ida charset; rfl
  | cons p rest ih =>
    intro st ida charset
    simp only [envPartsWriteE]
    split
    next st1 err heq =>
      have h0 := count_close_mark st ida
      rw [heq] at h0
      simpa using h0
    next st1 heq =>
      have h0 := count_close_mark st ida
      rw [heq] at h0
      simp only [] at h0
      split
      next st2 err heq2 =>
        have h1 := count_close_part st1 p charset
        rw [heq2] at h1
        simp only [] at h1
        rw [h1, h0]
      next st2 heq2 =>
        have h1 := count_close_part st1 p charset
        rw [heq2] at h1
        simp only [] at h1
        rw [ih st2 ida charset, h1, h0]

/-- When `Envelope.Write` returns a write error (an early abort), it has not
closed the stream. -/
theorem count_close_envelope_writeErr (fd : Nat → List Nat) (now : Nat)
    (s1 s2 s3 : List Nat) (e : Envelope) (st : WState)
    (h : (envelopeWriteE fd now s1 s2 s3 e st).2.2 = some GoErr.writeErr) :
    ((envelopeWriteE fd now s1 s2 s3 e st).2.1.events).count Ev.close
      = st.events.count Ev.close := by
  revert h
  simp only [envelopeWriteE]
  split
  next st1 err heq =>
    intro _
    have h0 := count_close_headers
      (envHeaders (envAfterWrite now e) (fd (envAfterWrite now e).Date)) st
    rw [heq] at h0
    simpa using h0
  next st1 heq =>
    have h0 := count_close_headers
      (envHeaders (envAfterWrite now e) (fd (envAfterWrite now e).Date)) st
    rw [heq] at h0
    simp only [] at h0
    have h1 := count_close_newBoundary st1 "multipart/mixed" (randomBoundary s1)
    split
    next st3 err heq3 =>
      intro _
      have h2 := count_close_mark (newBoundaryE st1 "multipart/mixed" (randomBoundary s1))
        (randomBoundary s1)
      rw [heq3] at h2
      simp only [] at h2
      rw [h2, h1, h0]
    next st3 heq3 =>
      have h2 := count_close_mark (newBoundaryE st1 "multipart/mixed" (randomBoundary s1))
        (randomBoundary s1)
      rw [heq3] at h2
      simp only [] at h2
      have h4 := count_close_newBoundary st3 "multipart/related" (randomBoundary s2)
      split
      next st5 err heq5 =>
        intro _
        have h5 := count_close_mark (newBoundaryE st3 "multipart/related" (randomBoundary s2))
          (randomBoundary s2)
        rw [heq5] at h5
        simp only [] at h5
        rw [h5, h4, h2, h1, h0]
      next st5 heq5 =>
        have h5 := count_close_mark (newBoundaryE st3 "multipart/related" (randomBoundary s2))
          (randomBoundary s2)
        rw [heq5] at h5
        simp only [] at h5
        have h6 := count_close_newBoundary st5 "multipart/alternative" (randomBoundary s3)
        split
        next st7 err heq7 =>
          intro _
          have h7 := count_close_parts (envAfterWrite now e).Parts
            (newBoundaryE st5 "multipart/alternative" (randomBoundary s3)) (randomBoundary s3)
            (envAfterWrite now e).Charset
          rw [heq7] at h7
          simp only [] at h7
          rw [h7, h6, h5, h4, h2, h1, h0]
        next st7 heq7 =>
          have h7 := count_close_parts (envAfterWrite now e).Parts
            (newBoundaryE st5 "multipart/alternative" (randomBoundary s3)) (randomBoundary s3)
            (envAfterWrite now e).Charset
          rw [heq7] at h7
          simp only [] at h7
          split
          next st8 err heq8 =>
            intro _
            have h8 := count_close_end st7 (randomBoundary s3)
            rw [heq8] at h8
            simp only [] at h8
            rw [h8, h7, h6, h5, h4, h2, h1, h0]
          next st8 heq8 =>
            have h8 := count_close_end st7 (randomBoundary s3)
            rw [heq8] at h8
            simp only [] at h8
            split
            next st9 err heq9 =>
              intro _
              have h9 := count_close_end st8 (randomBoundary s2)
              rw [heq9] at h9
              simp only [] at h9
              rw [h9, h8, h7, h6, h5, h4, h2, h1, h0]
            next st9 heq9 =>
              have h9 := count_close_end st8 (randomBoundary s2)
              rw [heq9] at h9
              simp only [] at h9
              split
              next st10 err heq10 =>
                intro _
                have h10 := count_close_end st9 (randomBoundary s1)
                rw [heq10] at h10
                simp only [] at h10
                rw [h10, h9, h8, h7, h6, h5, h4, h2, h1, h0]
              next st10 heq10 =>
                intro hclose
                exfalso
                simp only [closeB] at hclose
                split at hclose <;> simp at hclose

/-! ### Abort behaviour of `Headers.Write` on a failing stream -/

/-- A successful `Write` call appends its chunk. -/
theorem writeB_true (st : WState) (c : List Nat) (st' : WState)
    (h : writeB st c = (st', true)) :
    st' = { st with calls := st.calls + 1, events := st.events ++ [Ev.write c] } := by
  simp only [writeB] at h
  split at h <;> simp_all

/-- A successful `Write` call had the budget for it. -/
theorem writeB_true_budget (st : WState) (c : List Nat) (st' : WState)
    (h : writeB st c = (st', true)) :
    ∀ k, st.stream.failFrom = some k → st.calls < k := by
  intro k hk
  simp only [writeB] at h
  split at h
  next hok => simpa [wOk, hk] using hok
  next => simp_all

/-- A failed `Write` call appends nothing. -/
theorem writeB_false (st : WState) (c : List Nat) (st' : WState)
    (h : writeB st c = (st', false)) :
    st' = { st with calls := st.calls + 1 } := by
  simp only [writeB] at h
  split at h <;> simp_all

/-- One header field either succeeds, emitting exactly its chunks (with one
write-call per chunk, all within the stream budget), or fails with a write
error having emitted a proper prefix of them. -/
theorem headerFieldWriteE_cases (st : WState) (f : List Nat × List (List Nat)) :
    ((headerFieldWriteE st f).2 = none ∧
      (headerFieldWriteE st f).1
        = { st with
            calls := st.calls + (headerFieldChunks f).length,
            events := st.events ++ (headerFieldChunks f).map Ev.write } ∧
      (∀ k, st.stream.failFrom = some k → st.calls + (headerFieldChunks f).length ≤ k))
    ∨ ((headerFieldWriteE st f).2 = some GoErr.writeErr ∧
      (headerFieldWriteE st f).1.stream = st.stream ∧
      ∃ t, t ≠ [] ∧ (headerFieldWriteE st f).1.events ++ t
          = st.events ++ (headerFieldChunks f).map Ev.write) := by
  obtain ⟨name, vals⟩ := f
  by_cases hv : vals = []
  · subst hv
    simp only [headerFieldWriteE, headerFieldChunks]
    rcases h1 : writeB st name with ⟨st1, ok1⟩
    cases ok1 with
    | false =>
      right
      have e1 := writeB_false st name st1 h1
      subst e1
      simp [h1]
    | true =>
      have e1 := writeB_true st name st1 h1
      rcases h2 : writeB st1 (bs ":" ++ CRLFb) with ⟨st2, ok2⟩
      cases ok2 with
      | false =>
        right
        have e2 := writeB_false st1 _ st2 h2
        subst e2
        subst e1
        simp [h1, h2]
      | true =>
        left
        have e2 := writeB_true st1 _ st2 h2
        have hb2 := writeB_true_budget st1 _ st2 h2
        subst e2
        subst e1
        refine ⟨by simp [h1, h2], by simp [h1, h2], ?_⟩
        intro k hk
        have := hb2 k (by simpa using hk)
        simp at this ⊢
        omega
  · simp only [headerFieldWriteE, headerFieldChunks, if_neg hv]
    rcases h1 : writeB st name with ⟨st1, ok1⟩
    cases ok1 with
    | false =>
      right
      have e1 := writeB_false st name st1 h1
      subst e1
      simp [h1, hv]
    | true =>
      have e1 := writeB_true st name st1 h1
      rcases h2 : writeB st1 (bs ": ") with ⟨st2, ok2⟩
      cases ok2 with
      | false =>
        right
        have e2 := writeB_false st1 _ st2 h2
        subst e2
        subst e1
        simp [h1, h2, hv]
      | true =>
        have e2 := writeB_true st1 _ st2 h2
        rcases h3 : writeB st2 (joinSep (bs "; ") vals) with ⟨st3, ok3⟩
        cases ok3 with
        | false =>
          right
          have e3 := writeB_false st2 _ st3 h3
          subst e3
          subst e2
          subst e1
          simp [h1, h2, h3, hv]
        | true =>
          have e3 := writeB_true st2 _ st3 h3
          rcases h4 : writeB st3 CRLFb with ⟨st4, ok4⟩
          cases ok4 with
          | false =>
            right
            have e4 := writeB_false st3 _ st4 h4
            subst e4
            subst e3
            subst e2
            subst e1
            simp [h1, h2, h3, h4, hv]
          | true =>
            left
            have e4 := writeB_true st3 _ st4 h4
            have hb4 := writeB_true_budget st3 _ st4 h4
            subst e4
            subst e3
            subst e2
            subst e1
            refine ⟨by simp [h1, h2, h3, h4], by simp [h1, h2, h3, h4], ?_⟩
            intro k hk
            have := hb4 k (by simpa using hk)
            simp at this ⊢
            omega

/-- `Headers.Write` either succeeds, emitting exactly its chunks, or fails
with a write error having emitted a proper prefix of them. -/
theorem headersWriteE_cases : ∀ (hs : List (List Nat × List (List Nat))) (st : WState),
    ((headersWriteE st hs).2 = none ∧
      (headersWriteE st hs).1
        = { st with
            calls := st.calls + (headersChunks hs).length,
            events := st.events ++ (headersChunks hs).map Ev.write })
    ∨ ((headersWriteE st hs).2 = some GoErr.writeErr ∧
      ∃ t, t ≠ [] ∧ (headersWriteE st hs).1.events ++ t
          = st.events ++ (headersChunks hs).map Ev.write) := by
  intro hs
  induction hs with
  | nil =>
    intro st
    left
    constructor
    · rfl
    · simp [headersWriteE, headersChunks]
  | cons f rest ih =>
    intro st
    rcases hff : headerFieldWriteE st f with ⟨st1, err1⟩
    rcases headerFieldWriteE_cases st f with ⟨h1, h2, _⟩ | ⟨h1, _, t, ht, h2⟩
    · rw [hff] at h1 h2
      simp only at h1 h2
      subst h1
      subst h2
      rcases ih ({ st with
          calls := st.calls + (headerFieldChunks f).length,
          events := st.events ++ (headerFieldChunks f).map Ev.write }) with
        ⟨g1, g2⟩ | ⟨g1, t, ht, g2⟩
      · left
        simp only [headersWriteE, hff]
        refine ⟨g1, ?_⟩
        rw [g2]
        simp [headersChunks, List.append_assoc]
        omega
      · right
        simp only [headersWriteE, hff]
        refine ⟨g1, t, ht, ?_⟩
        rw [g2]
        simp [headersChunks, List.append_assoc]
    · rw [hff] at h1 h2
      simp only at h1 h2
      subst h1
      right
      simp only [headersWriteE, hff]
      refine ⟨trivial, t ++ (headersChunks rest).map Ev.write, by simp [ht], ?_⟩
      rw [← List.append_assoc, h2]
      simp [headersChunks, List.append_assoc]

/-- If the stream budget runs out within the writes of a nonempty header
map, `Headers.Write` surfaces a write error. -/
theorem headersWriteE_fail : ∀ (hs : List (List Nat × List (List Nat))) (st : WState)
    (k : Nat), st.stream.failFrom = some k →
    k < st.calls + (headersChunks hs).length → hs ≠ [] →
    (headersWriteE st hs).2 = some GoErr.writeErr := by
  intro hs
  induction hs with
  | nil => intro st k _ _ hne; exact absurd rfl hne
  | cons f rest ih =>
    intro st k hk hlt _
    rcases hff : headerFieldWriteE st f with ⟨st1, err1⟩
    rcases headerFieldWriteE_cases st f with ⟨h1, h2, h3⟩ | ⟨h1, _, _⟩
    · rw [hff] at h1 h2
      simp only at h1 h2
      subst h1
      subst h2
      simp only [headersWriteE, hff]
      have hbound := h3 k hk
      by_cases hr : rest = []
      · subst hr
        exfalso
        simp [headersChunks] at hlt
        omega
      · refine ih _ k (by simpa using hk) ?_ hr
        simp [headersChunks, List.length_append] at hlt ⊢
        omega
    · rw [hff] at h1
      simp only at h1
      subst h1
      simp only [headersWriteE, hff]

/-! ### Inequalities between chunk shapes -/

/-- Distributing byte extraction over Go string concatenation. -/
theorem bs_append (s t : String) : bs (s ++ t) = bs s ++ bs t := by
  simp [bs, String.toList]

/-- The boundary declaration chunk is the subtype, the separator and the
`boundary=` attribute followed by the identifier. -/
theorem boundaryDeclChunk_eq (mime : String) (id : List Nat) :
    boundaryDeclChunk mime id = bs (mime ++ "; boundary=") ++ id := by
  have h : bs "; " ++ bs "boundary=" = bs "; boundary=" := by decide
  simp [boundaryDeclChunk, joinSep, bs_append, ← h, List.append_assoc]

/-- Two appends are distinct when their prefixes disagree within both. -/
theorem append_ne_of_take (p q x y : List Nat) (k : Nat) (h1 : k ≤ p.length)
    (h2 : k ≤ q.length) (h : p.take k ≠ q.take k) : p ++ x ≠ q ++ y := by
  intro he
  apply h
  calc p.take k = (p ++ x).take k := (List.take_append_of_le_length h1).symm
    _ = (q ++ y).take k := by rw [he]
    _ = q.take k := List.take_append_of_le_length h2

/-- Lists of distinct lengths are distinct. -/
theorem ne_of_length_ne (x y : List Nat) (h : x.length ≠ y.length) : x ≠ y := by
  intro he
  exact h (by rw [he])

/-- The chunks of `NewBoundary`, spelled out. -/
theorem newBoundaryChunks_eq (mime : String) (id : List Nat) :
    newBoundaryChunks mime id =
      [bs "Content-Type", bs ": ", boundaryDeclChunk mime id, CRLFb, CRLFb] := by
  simp [newBoundaryChunks, headersChunks, headerFieldChunks, boundaryDeclChunk]

/-- Counting inside the parts loop: the alternative mark appears once per
part and, when no part chunk coincides with the counted chunk, nothing else
is counted. -/
theorem count_partsChunks (x ida charset : List Nat) :
    ∀ ps : List Part, (∀ p ∈ ps, x ∉ partChunks p charset) →
    (partsChunks ida charset ps).count x
      = (if x = markChunk ida then ps.length else 0) := by
  intro ps
  induction ps with
  | nil => intro _; simp [partsChunks]
  | cons p rest ih =>
    intro hmem
    have hx : x ∉ partChunks p charset := hmem p (by simp)
    rw [partsChunks]
    rw [List.count_cons]
    rw [List.count_append]
    rw [List.count_eq_zero.mpr hx]
    rw [ih (fun q hq => hmem q (by simp [hq]))]
    by_cases hxm : x = markChunk ida
    · simp [hxm]
    · simp [hxm, Ne.symm hxm]

/-! ## Claims -/

/-- Any run of `Envelope.Write` returns the date-defaulted envelope,
whatever the stream does. -/
theorem envelopeWriteE_fst (fd : Nat → List Nat) (now : Nat) (s1 s2 s3 : List Nat)
    (e : Envelope) (st : WState) :
    (envelopeWriteE fd now s1 s2 s3 e st).1 = envAfterWrite now e := by
  simp only [envelopeWriteE]
  repeat' split
  all_goals rfl

/-- C1: the claim fails on the code.  `Part.Write` pipes the source through
`quotedprintable.NewReader` — the *decoder* — instead of a quoted-printable
encoder, so for the source bytes `=41` the emitted body is `A`, and
quoted-printable-decoding the emitted body yields `A`, not the original
source bytes. -/
theorem claim1_qp_body_decode_at_failing_input :
    encodeBody quotedPrintableE (bs "=41") = bs "A" ∧
    qpDecodeBytes (encodeBody quotedPrintableE (bs "=41")) ≠ bs "=41" := by
  decide

/-- C5: for every part with the base64 encoding selector, base64-decoding
the body emitted by `Part.Write` reproduces exactly the original source
bytes, including sources whose length is not a multiple of 3. -/
theorem claim5_base64_roundtrip (p : Part) (henc : p.Encoding = base64E)
    (hbytes : ∀ b ∈ p.Reader, b < 256) :
    b64DecodeBytes (encodeBody p.Encoding p.Reader) = some p.Reader := by
  rw [henc]
  simp only [encodeBody]
  rw [if_pos trivial]
  exact b64_roundtrip _ hbytes

/-- C5 witness: a 5-byte source (not a multiple of 3) round-trips. -/
theorem claim5_witness :
    (∀ b ∈ bs "hello", b < 256) ∧
    b64DecodeBytes (encodeBody base64E (bs "hello")) = some (bs "hello") :=
  ⟨by decide, claim5_base64_roundtrip
    { ContentType := bs "text/plain", Encoding := base64E, Reader := bs "hello" }
    rfl (by decide)⟩

/-- C8: a header field with one or more values is emitted as one line: the
name, the two bytes `": "`, the values joined by `"; "` in their original
order and verbatim, and a CRLF. -/
theorem claim8_joined_values_line (name : List Nat) (vals : List (List Nat))
    (h : vals ≠ []) :
    headerLine (name, vals) = name ++ bs ": " ++ joinSep (bs "; ") vals ++ CRLFb := by
  simp [headerLine, headerFieldChunks, h, List.append_assoc]

/-- C8 witness: a two-value field. -/
theorem claim8_witness :
    ([bs "a", bs "b"] ≠ ([] : List (List Nat))) ∧
    headerLine (bs "To", [bs "a", bs "b"])
      = bs "To" ++ bs ": " ++ joinSep (bs "; ") [bs "a", bs "b"] ++ CRLFb :=
  ⟨by decide, claim8_joined_values_line (bs "To") [bs "a", bs "b"] (by decide)⟩

/-- C10: when the envelope's date is the zero time value, `Envelope.Write`
assigns the injected current time into the caller's envelope itself, and no
other field of the envelope is modified (the returned envelope is exactly
the input with only `Date` replaced). -/
theorem claim10_date_defaulting_frame (fd : Nat → List Nat) (now : Nat)
    (s1 s2 s3 : List Nat) (e : Envelope) (st : WState) (h : e.Date = 0) :
    (envelopeWriteE fd now s1 s2 s3 e st).1 = { e with Date := now } := by
  rw [envelopeWriteE_fst, envAfterWrite, if_pos h]

/-- C10 witness: a zero-date envelope picks up the injected clock value. -/
theorem claim10_witness :
    sampleEnv.Date = 0 ∧
    (envelopeWriteE sampleFmtDate 7 seedA seedB seedC sampleEnv
      (mkState sampleStream)).1 = { sampleEnv with Date := 7 } :=
  ⟨rfl, claim10_date_defaulting_frame sampleFmtDate 7 seedA seedB seedC sampleEnv
    (mkState sampleStream) rfl⟩

/-- C9 counterexample: the code does not reject `Mark` after `End` — on a
healthy stream the call returns no error and writes a further mark
delimiter to the stream after the terminal close marker. -/
theorem claim9_counterexample :
    (markE (endE (mkState sampleStream) (bs "b")).1 (bs "b")).2 = none ∧
    (markE (endE (mkState sampleStream) (bs "b")).1 (bs "b")).1.events
      = [Ev.write (endChunk (bs "b")), Ev.write (markChunk (bs "b"))] := by
  decide

/-- C9 (amended): `Boundary` keeps no lifecycle state, so a `Mark` call
after `End` is not rejected: on a stream whose writes succeed it returns no
error and appends a further `--<id>` mark delimiter right after the
terminal `--<id>--` close marker. -/
theorem claim9_mark_after_end_writes (id : List Nat) (st : WState)
    (h : st.stream.failFrom = none) :
    (markE (endE st id).1 id).2 = none ∧
    (markE (endE st id).1 id).1.events
      = st.events ++ [Ev.write (endChunk id), Ev.write (markChunk id)] := by
  simp [endE_nofail st id h, markE_nofail, h]

/-- C9 witness: the amended behaviour at a concrete boundary and stream. -/
theorem claim9_witness :
    (mkState sampleStream).stream.failFrom = none ∧
    ((markE (endE (mkState sampleStream) (bs "b")).1 (bs "b")).2 = none ∧
     (markE (endE (mkState sampleStream) (bs "b")).1 (bs "b")).1.events
       = (mkState sampleStream).events
         ++ [Ev.write (endChunk (bs "b")), Ev.write (markChunk (bs "b"))]) :=
  ⟨rfl, claim9_mark_after_end_writes (bs "b") (mkState sampleStream) rfl⟩

/-- C3 counterexample: two runs of `Headers.Write` over the same header map
presented in two map iteration orders emit different byte sequences, so the
emitted order is not determined by the map value (a Go map fixes no
insertion order). -/
theorem claim3_counterexample :
    List.Perm [(bs "A", [bs "1"]), (bs "B", [bs "2"])]
      [(bs "B", [bs "2"]), (bs "A", [bs "1"])] ∧
    headersChunks [(bs "A", [bs "1"]), (bs "B", [bs "2"])]
      ≠ headersChunks [(bs "B", [bs "2"]), (bs "A", [bs "1"])] := by
  decide

/-- C3 (amended): header emission is a function of the map *and* the
iteration order Go happens to use; permuting the iteration order permutes
the emitted header lines, so the multiset of lines — but not their order —
is determined by the `Headers` value. -/
theorem claim3_lines_perm (h1 h2 : List (List Nat × List (List Nat)))
    (hp : List.Perm h1 h2) :
    List.Perm (h1.map headerLine) (h2.map headerLine) :=
  hp.map headerLine

/-- C3 witness: the permuted two-field map yields permuted lines. -/
theorem claim3_witness :
    List.Perm ([(bs "A", [bs "1"]), (bs "B", [bs "2"])].map headerLine)
      ([(bs "B", [bs "2"]), (bs "A", [bs "1"])].map headerLine) :=
  claim3_lines_perm _ _ (by decide)

set_option maxRecDepth 40000 in
/-- C7: a header field with zero values emits exactly the field name, a
colon and CRLF — no space, no value — and the sample envelope with an empty
Cc list produces the line `Cc:` CRLF exactly once in the full output of
`Envelope.Write`. -/
theorem claim7_empty_value_header :
    (∀ name : List Nat, headerLine (name, []) = name ++ bs ":" ++ CRLFb) ∧
    countSub (bs "Cc:" ++ CRLFb)
      (flattenChunks (envChunks sampleFmtDate 7 seedA seedB seedC sampleEnv)) = 1 := by
  constructor
  · intro name
    simp [headerLine, headerFieldChunks, List.append_assoc]
  · decide

/-- C2 counterexample: on a stream whose first write fails, `Envelope.Write`
returns the write error without ever invoking close — close is invoked zero
times, not exactly once. -/
theorem claim2_counterexample :
    (envelopeWriteE sampleFmtDate 7 seedA seedB seedC sampleEnv
      (mkState failStream)).2.2 = some GoErr.writeErr ∧
    ((envelopeWriteE sampleFmtDate 7 seedA seedB seedC sampleEnv
      (mkState failStream)).2.1.events).count Ev.close = 0 := by
  decide

/-- C2 (amended): when no write fails, `Envelope.Write` invokes close
exactly once, as its last action, and reports the close's success or
failure to the caller; when a write fails partway, `Write` returns that
write error without invoking close. -/
theorem claim2_close_once (fd : Nat → List Nat) (now : Nat) (s1 s2 s3 : List Nat)
    (e : Envelope) (strm : OutStream) :
    (strm.failFrom = none →
      (envelopeWriteE fd now s1 s2 s3 e (mkState strm)).2.1.events
        = (envChunks fd now s1 s2 s3 e).map Ev.write ++ [Ev.close] ∧
      (envelopeWriteE fd now s1 s2 s3 e (mkState strm)).2.2
        = (if strm.closeOk then none else some GoErr.closeErr)) ∧
    (∀ st : WState, (envelopeWriteE fd now s1 s2 s3 e st).2.2 = some GoErr.writeErr →
      ((envelopeWriteE fd now s1 s2 s3 e st).2.1.events).count Ev.close
        = st.events.count Ev.close) := by
  constructor
  · intro h
    rw [envelopeWriteE_nofail fd now s1 s2 s3 e (mkState strm) h]
    constructor
    · simp [mkState]
    · rfl
  · intro st hst
    exact count_close_envelope_writeErr fd now s1 s2 s3 e st hst

/-- C2 witness: the amended behaviour at concrete streams — the full trace
with the single trailing close on a healthy stream, and no close at all on
a stream whose first write fails. -/
theorem claim2_witness :
    ((envelopeWriteE sampleFmtDate 7 seedA seedB seedC sampleEnv
        (mkState sampleStream)).2.1.events
      = (envChunks sampleFmtDate 7 seedA seedB seedC sampleEnv).map Ev.write
        ++ [Ev.close]) ∧
    ((envelopeWriteE sampleFmtDate 7 seedA seedB seedC sampleEnv
        (mkState failStream)).2.1.events).count Ev.close
      = (mkState failStream).events.count Ev.close :=
  ⟨((claim2_close_once sampleFmtDate 7 seedA seedB seedC sampleEnv sampleStream).1
      rfl).1,
   (claim2_close_once sampleFmtDate 7 seedA seedB seedC sampleEnv failStream).2
      (mkState failStream) (by decide)⟩

/-- C6: `Headers.Write` — whose only side effect is writing to the given
stream — aborts on the first failed write: the emitted events are always a
prefix of the never-failing run's events; they coincide exactly when no
error is returned; a returned error is the write error and the emitted
events fall strictly short of the never-failing run's; and a stream whose
budget runs out within the writes of a nonempty header map is guaranteed
the error. -/
theorem claim6_headers_abort_on_failure (hs : List (List Nat × List (List Nat)))
    (st : WState) :
    (∃ t, (headersWriteE st hs).1.events ++ t
        = (headersWriteE (unfail st) hs).1.events) ∧
    ((headersWriteE st hs).2 = none →
      (headersWriteE st hs).1.events = (headersWriteE (unfail st) hs).1.events) ∧
    ((headersWriteE st hs).2 ≠ none →
      (headersWriteE st hs).2 = some GoErr.writeErr ∧
      (headersWriteE st hs).1.events.length
        < (headersWriteE (unfail st) hs).1.events.length) ∧
    (∀ k, st.stream.failFrom = some k → k < st.calls + (headersChunks hs).length →
      hs ≠ [] → (headersWriteE st hs).2 = some GoErr.writeErr) := by
  have hok := headersWriteE_nofail hs (unfail st) rfl
  rcases headersWriteE_cases hs st with ⟨h1, h2⟩ | ⟨h1, t, ht, h2⟩
  · refine ⟨⟨[], ?_⟩, fun _ => ?_, fun hn => absurd h1 hn, ?_⟩
    · rw [hok, h2]
      simp [unfail]
    · rw [hok, h2]
      simp [unfail]
    · intro k hk hlt hne
      exact headersWriteE_fail hs st k hk hlt hne
  · refine ⟨⟨t, ?_⟩, fun h0 => ?_, fun _ => ⟨h1, ?_⟩, ?_⟩
    · rw [hok, h2]
      simp [unfail]
    · rw [h1] at h0
      exact Option.noConfusion h0
    · have hlen := congrArg List.length h2
      simp [List.length_append] at hlen
      rw [hok]
      simp [unfail, List.length_append]
      have ht2 : 0 < t.length := List.length_pos.mpr ht
      omega
    · intro k hk hlt hne
      exact headersWriteE_fail hs st k hk hlt hne

/-- C6 witness: a stream failing at the third write inside a one-field map
surfaces the write error, emits strictly less than the healthy run, and the
budget criterion detects the failure. -/
theorem claim6_witness :
    ((headersWriteE (mkState failMidStream) [(bs "A", [bs "1"])]).2
        = some GoErr.writeErr ∧
      (headersWriteE (mkState failMidStream) [(bs "A", [bs "1"])]).1.events.length
        < (headersWriteE (unfail (mkState failMidStream))
            [(bs "A", [bs "1"])]).1.events.length) ∧
    (headersWriteE (mkState failMidStream) [(bs "A", [bs "1"])]).2
      = some GoErr.writeErr :=
  ⟨(claim6_headers_abort_on_failure [(bs "A", [bs "1"])]
      (mkState failMidStream)).2.2.1 (by decide),
   (claim6_headers_abort_on_failure [(bs "A", [bs "1"])]
      (mkState failMidStream)).2.2.2 2 rfl (by decide) (by decide)⟩

/-! ### Shape facts feeding the boundary-structure claim -/

/-- Date defaulting leaves the part list unchanged. -/
theorem envAfterWrite_Parts (now : Nat) (e : Envelope) :
    (envAfterWrite now e).Parts = e.Parts := by
  rw [envAfterWrite]
  split <;> rfl

/-- Date defaulting leaves the charset unchanged. -/
theorem envAfterWrite_Charset (now : Nat) (e : Envelope) :
    (envAfterWrite now e).Charset = e.Charset := by
  rw [envAfterWrite]
  split <;> rfl

/-- The mark chunk with its literal prefix split off. -/
theorem markChunk_eq (id : List Nat) : markChunk id = bs "--" ++ (id ++ CRLFb) := by
  simp [markChunk, List.append_assoc]

/-- The close-marker chunk with its literal prefix split off. -/
theorem endChunk_eq (id : List Nat) :
    endChunk id = bs "--" ++ (id ++ (bs "--" ++ (CRLFb ++ CRLFb))) := by
  simp [endChunk, List.append_assoc]

/-- Mark chunks determine their identifier. -/
theorem markChunk_inj (id1 id2 : List Nat) (h : markChunk id1 = markChunk id2) :
    id1 = id2 := by
  simp only [markChunk] at h
  exact List.append_cancel_left (List.append_cancel_right h)

/-- Close-marker chunks determine their identifier. -/
theorem endChunk_inj (id1 id2 : List Nat) (h : endChunk id1 = endChunk id2) :
    id1 = id2 := by
  simp only [endChunk] at h
  exact List.append_cancel_left
    (List.append_cancel_right (List.append_cancel_right (List.append_cancel_right h)))

/-- Length of a mark chunk. -/
theorem markChunk_length (id : List Nat) : (markChunk id).length = id.length + 4 := by
  have h1 : (bs "--").length = 2 := by decide
  have h2 : CRLFb.length = 2 := by decide
  simp [markChunk, h1, h2]
  omega

/-- Length of a close-marker chunk. -/
theorem endChunk_length (id : List Nat) : (endChunk id).length = id.length + 8 := by
  have h1 : (bs "--").length = 2 := by decide
  have h2 : CRLFb.length = 2 := by decide
  simp [endChunk, h1, h2]
  omega

/-- An append with a disagreeing prefix differs from a plain list. -/
theorem append_ne_lit (p q x : List Nat) (k : Nat) (h1 : k ≤ p.length)
    (h2 : k ≤ q.length) (h : p.take k ≠ q.take k) : p ++ x ≠ q := by
  have h0 := append_ne_of_take p q x [] k h1 h2 h
  simpa using h0

/-- The write trace of `Envelope.Write`, decomposed into its segments. -/
theorem envChunks_decomp (fd : Nat → List Nat) (now : Nat) (s1 s2 s3 : List Nat)
    (e : Envelope) :
    envChunks fd now s1 s2 s3 e =
      headersChunks (envHeaders (envAfterWrite now e) (fd (envAfterWrite now e).Date))
      ++ newBoundaryChunks "multipart/mixed" (randomBoundary s1)
      ++ [markChunk (randomBoundary s1)]
      ++ newBoundaryChunks "multipart/related" (randomBoundary s2)
      ++ [markChunk (randomBoundary s2)]
      ++ newBoundaryChunks "multipart/alternative" (randomBoundary s3)
      ++ partsChunks (randomBoundary s3) (envAfterWrite now e).Charset
          (envAfterWrite now e).Parts
      ++ [endChunk (randomBoundary s3), endChunk (randomBoundary s2),
          endChunk (randomBoundary s1)] := rfl

set_option maxHeartbeats 1600000 in
/-- C4: for every envelope with N parts, the write trace of `Envelope.Write`
contains exactly one `multipart/mixed`, one `multipart/related` and one
`multipart/alternative` boundary declaration, each with a distinct
60-character hex token (given distinct 30-byte random draws), exactly N mark
delimiters of the alternative boundary, and each boundary closed exactly
once, with the close markers in exact reverse order of the opens
(alternative, then related, then mixed), the closes being the trace's final
chunks.  The hypotheses `hH`/`hP` state that no header or part-content chunk
coincides with a delimiter chunk — the collision-freedom the random tokens
are drawn for. -/
theorem claim4_boundary_structure
    (fd : Nat → List Nat) (now : Nat) (s1 s2 s3 : List Nat) (e : Envelope)
    (hl1 : s1.length = 30) (hl2 : s2.length = 30) (hl3 : s3.length = 30)
    (hb1 : ∀ b ∈ s1, b < 256) (hb2 : ∀ b ∈ s2, b < 256) (hb3 : ∀ b ∈ s3, b < 256)
    (hs12 : s1 ≠ s2) (hs13 : s1 ≠ s3) (hs23 : s2 ≠ s3)
    (hH : ∀ c ∈ specialChunks s1 s2 s3,
      c ∉ headersChunks (envHeaders (envAfterWrite now e) (fd (envAfterWrite now e).Date)))
    (hP : ∀ c ∈ specialChunks s1 s2 s3, ∀ p ∈ e.Parts, c ∉ partChunks p e.Charset) :
    ((randomBoundary s1).length = 60 ∧ (randomBoundary s2).length = 60 ∧
      (randomBoundary s3).length = 60) ∧
    (randomBoundary s1 ≠ randomBoundary s2 ∧ randomBoundary s1 ≠ randomBoundary s3 ∧
      randomBoundary s2 ≠ randomBoundary s3) ∧
    ((∀ c ∈ randomBoundary s1, c ∈ hexAlphabet) ∧
      (∀ c ∈ randomBoundary s2, c ∈ hexAlphabet) ∧
      (∀ c ∈ randomBoundary s3, c ∈ hexAlphabet)) ∧
    ((envChunks fd now s1 s2 s3 e).count
        (boundaryDeclChunk "multipart/mixed" (randomBoundary s1)) = 1 ∧
      (envChunks fd now s1 s2 s3 e).count
        (boundaryDeclChunk "multipart/related" (randomBoundary s2)) = 1 ∧
      (envChunks fd now s1 s2 s3 e).count
        (boundaryDeclChunk "multipart/alternative" (randomBoundary s3)) = 1) ∧
    ((envChunks fd now s1 s2 s3 e).count (markChunk (randomBoundary s3))
        = e.Parts.length) ∧
    ((envChunks fd now s1 s2 s3 e).count (endChunk (randomBoundary s3)) = 1 ∧
      (envChunks fd now s1 s2 s3 e).count (endChunk (randomBoundary s2)) = 1 ∧
      (envChunks fd now s1 s2 s3 e).count (endChunk (randomBoundary s1)) = 1) ∧
    (∃ pre, envChunks fd now s1 s2 s3 e
        = pre ++ [endChunk (randomBoundary s3), endChunk (randomBoundary s2),
                  endChunk (randomBoundary s1)]) := by
  have L1 : (randomBoundary s1).length = 60 := by
    rw [randomBoundary, hexEncode_length, hl1]
  have L2 : (randomBoundary s2).length = 60 := by
    rw [randomBoundary, hexEncode_length, hl2]
  have L3 : (randomBoundary s3).length = 60 := by
    rw [randomBoundary, hexEncode_length, hl3]
  have D12 : randomBoundary s1 ≠ randomBoundary s2 :=
    fun h => hs12 (hexEncode_inj s1 s2 hb1 hb2 h)
  have D13 : randomBoundary s1 ≠ randomBoundary s3 :=
    fun h => hs13 (hexEncode_inj s1 s3 hb1 hb3 h)
  have D23 : randomBoundary s2 ≠ randomBoundary s3 :=
    fun h => hs23 (hexEncode_inj s2 s3 hb2 hb3 h)
  -- declaration chunks differ from the fixed header chunks and delimiters
  have d1ct : boundaryDeclChunk "multipart/mixed" (randomBoundary s1)
      ≠ bs "Content-Type" := by
    rw [boundaryDeclChunk_eq]
    exact append_ne_lit _ _ _ 1 (by decide) (by decide) (by decide)
  have d2ct : boundaryDeclChunk "multipart/related" (randomBoundary s2)
      ≠ bs "Content-Type" := by
    rw [boundaryDeclChunk_eq]
    exact append_ne_lit _ _ _ 1 (by decide) (by decide) (by decide)
  have d3ct : boundaryDeclChunk "multipart/alternative" (randomBoundary s3)
      ≠ bs "Content-Type" := by
    rw [boundaryDeclChunk_eq]
    exact append_ne_lit _ _ _ 1 (by decide) (by decide) (by decide)
  have d1cs : boundaryDeclChunk "multipart/mixed" (randomBoundary s1) ≠ bs ": " := by
    rw [boundaryDeclChunk_eq]
    exact append_ne_lit _ _ _ 1 (by decide) (by decide) (by decide)
  have d2cs : boundaryDeclChunk "multipart/related" (randomBoundary s2) ≠ bs ": " := by
    rw [boundaryDeclChunk_eq]
    exact append_ne_lit _ _ _ 1 (by decide) (by decide) (by decide)
  have d3cs : boundaryDeclChunk "multipart/alternative" (randomBoundary s3)
      ≠ bs ": " := by
    rw [boundaryDeclChunk_eq]
    exact append_ne_lit _ _ _ 1 (by decide) (by decide) (by decide)
  have d1cr : boundaryDeclChunk "multipart/mixed" (randomBoundary s1) ≠ CRLFb := by
    rw [boundaryDeclChunk_eq]
    exact append_ne_lit _ _ _ 1 (by decide) (by decide) (by decide)
  have d2cr : boundaryDeclChunk "multipart/related" (randomBoundary s2) ≠ CRLFb := by
    rw [boundaryDeclChunk_eq]
    exact append_ne_lit _ _ _ 1 (by decide) (by decide) (by decide)
  have d3cr : boundaryDeclChunk "multipart/alternative" (randomBoundary s3)
      ≠ CRLFb := by
    rw [boundaryDeclChunk_eq]
    exact append_ne_lit _ _ _ 1 (by decide) (by decide) (by decide)
  have d12 : boundaryDeclChunk "multipart/mixed" (randomBoundary s1)
      ≠ boundaryDeclChunk "multipart/related" (randomBoundary s2) := by
    rw [boundaryDeclChunk_eq, boundaryDeclChunk_eq]
    exact append_ne_of_take _ _ _ _ 11 (by decide) (by decide) (by decide)
  have d13 : boundaryDeclChunk "multipart/mixed" (randomBoundary s1)
      ≠ boundaryDeclChunk "multipart/alternative" (randomBoundary s3) := by
    rw [boundaryDeclChunk_eq, boundaryDeclChunk_eq]
    exact append_ne_of_take _ _ _ _ 11 (by decide) (by decide) (by decide)
  have d23 : boundaryDeclChunk "multipart/related" (randomBoundary s2)
      ≠ boundaryDeclChunk "multipart/alternative" (randomBoundary s3) := by
    rw [boundaryDeclChunk_eq, boundaryDeclChunk_eq]
    exact append_ne_of_take _ _ _ _ 11 (by decide) (by decide) (by decide)
  have d1m : ∀ id, boundaryDeclChunk "multipart/mixed" (randomBoundary s1)
      ≠ markChunk id := by
    intro id
    rw [boundaryDeclChunk_eq, markChunk_eq]
    exact append_ne_of_take _ _ _ _ 1 (by decide) (by decide) (by decide)
  have d2m : ∀ id, boundaryDeclChunk "multipart/related" (randomBoundary s2)
      ≠ markChunk id := by
    intro id
    rw [boundaryDeclChunk_eq, markChunk_eq]
    exact append_ne_of_take _ _ _ _ 1 (by decide) (by decide) (by decide)
  have d3m : ∀ id, boundaryDeclChunk "multipart/alternative" (randomBoundary s3)
      ≠ markChunk id := by
    intro id
    rw [boundaryDeclChunk_eq, markChunk_eq]
    exact append_ne_of_take _ _ _ _ 1 (by decide) (by decide) (by decide)
  have d1e : ∀ id, boundaryDeclChunk "multipart/mixed" (randomBoundary s1)
      ≠ endChunk id := by
    intro id
    rw [boundaryDeclChunk_eq, endChunk_eq]
    exact append_ne_of_take _ _ _ _ 1 (by decide) (by decide) (by decide)
  have d2e : ∀ id, boundaryDeclChunk "multipart/related" (randomBoundary s2)
      ≠ endChunk id := by
    intro id
    rw [boundaryDeclChunk_eq, endChunk_eq]
    exact append_ne_of_take _ _ _ _ 1 (by decide) (by decide) (by decide)
  have d3e : ∀ id, boundaryDeclChunk "multipart/alternative" (randomBoundary s3)
      ≠ endChunk id := by
    intro id
    rw [boundaryDeclChunk_eq, endChunk_eq]
    exact append_ne_of_take _ _ _ _ 1 (by decide) (by decide) (by decide)
  -- marks differ from the fixed header chunks
  have mct : ∀ id, markChunk id ≠ bs "Content-Type" := by
    intro id
    rw [markChunk_eq]
    exact append_ne_lit _ _ _ 1 (by decide) (by decide) (by decide)
  have mcs : ∀ id, markChunk id ≠ bs ": " := by
    intro id
    rw [markChunk_eq]
    exact append_ne_lit _ _ _ 1 (by decide) (by decide) (by decide)
  have mcr : ∀ id, markChunk id ≠ CRLFb := by
    intro id
    rw [markChunk_eq]
    exact append_ne_lit _ _ _ 1 (by decide) (by decide) (by decide)
  have ect : ∀ id, endChunk id ≠ bs "Content-Type" := by
    intro id
    rw [endChunk_eq]
    exact append_ne_lit _ _ _ 1 (by decide) (by decide) (by decide)
  have ecs : ∀ id, endChunk id ≠ bs ": " := by
    intro id
    rw [endChunk_eq]
    exact append_ne_lit _ _ _ 1 (by decide) (by decide) (by decide)
  have ecr : ∀ id, endChunk id ≠ CRLFb := by
    intro id
    rw [endChunk_eq]
    exact append_ne_lit _ _ _ 1 (by decide) (by decide) (by decide)
  -- marks with distinct identifiers differ; marks never equal close markers
  have m31 : markChunk (randomBoundary s3) ≠ markChunk (randomBoundary s1) :=
    fun h => D13 (markChunk_inj _ _ h).symm
  have m32 : markChunk (randomBoundary s3) ≠ markChunk (randomBoundary s2) :=
    fun h => D23 (markChunk_inj _ _ h).symm
  have me : ∀ id1 id2, id1.length = 60 → id2.length = 60 →
      markChunk id1 ≠ endChunk id2 := by
    intro id1 id2 e1 e2
    apply ne_of_length_ne
    rw [markChunk_length, endChunk_length, e1, e2]
    omega
  have em : ∀ id1 id2, id1.length = 60 → id2.length = 60 →
      endChunk id1 ≠ markChunk id2 := fun id1 id2 e1 e2 =>
    (me id2 id1 e2 e1).symm
  have e32 : endChunk (randomBoundary s3) ≠ endChunk (randomBoundary s2) :=
    fun h => D23 (endChunk_inj _ _ h).symm
  have e31 : endChunk (randomBoundary s3) ≠ endChunk (randomBoundary s1) :=
    fun h => D13 (endChunk_inj _ _ h).symm
  have e21 : endChunk (randomBoundary s2) ≠ endChunk (randomBoundary s1) :=
    fun h => D12 (endChunk_inj _ _ h).symm
  -- membership facts from the collision-freedom hypotheses
  have hparts : ∀ c ∈ specialChunks s1 s2 s3, ∀ p ∈ (envAfterWrite now e).Parts,
      c ∉ partChunks p (envAfterWrite now e).Charset := by
    rw [envAfterWrite_Parts, envAfterWrite_Charset]
    exact hP
  refine ⟨⟨L1, L2, L3⟩, ⟨D12, D13, D23⟩,
    ⟨hexEncode_mem s1 hb1, hexEncode_mem s2 hb2, hexEncode_mem s3 hb3⟩,
    ⟨?_, ?_, ?_⟩, ?_, ⟨?_, ?_, ?_⟩, ?_⟩
  · -- one multipart/mixed declaration
    have h0 : (headersChunks (envHeaders (envAfterWrite now e)
        (fd (envAfterWrite now e).Date))).count
        (boundaryDeclChunk "multipart/mixed" (randomBoundary s1)) = 0 :=
      List.count_eq_zero.mpr (hH _ (by simp [specialChunks]))
    have h1 := count_partsChunks (boundaryDeclChunk "multipart/mixed" (randomBoundary s1))
      (randomBoundary s3) (envAfterWrite now e).Charset (envAfterWrite now e).Parts
      (fun p hp => hparts _ (by simp [specialChunks]) p hp)
    rw [envChunks_decomp]
    simp [List.count_append, newBoundaryChunks_eq, List.count_cons, beq_iff_eq,
      h0, h1, d1ct, d1cs, d1cr, d12, d13, d1m _, d1e _]
  · -- one multipart/related declaration
    have h0 : (headersChunks (envHeaders (envAfterWrite now e)
        (fd (envAfterWrite now e).Date))).count
        (boundaryDeclChunk "multipart/related" (randomBoundary s2)) = 0 :=
      List.count_eq_zero.mpr (hH _ (by simp [specialChunks]))
    have h1 := count_partsChunks (boundaryDeclChunk "multipart/related" (randomBoundary s2))
      (randomBoundary s3) (envAfterWrite now e).Charset (envAfterWrite now e).Parts
      (fun p hp => hparts _ (by simp [specialChunks]) p hp)
    rw [envChunks_decomp]
    simp [List.count_append, newBoundaryChunks_eq, List.count_cons, beq_iff_eq,
      h0, h1, d2ct, d2cs, d2cr, Ne.symm d12, d23, d2m _, d2e _]
  · -- one multipart/alternative declaration
    have h0 : (headersChunks (envHeaders (envAfterWrite now e)
        (fd (envAfterWrite now e).Date))).count
        (boundaryDeclChunk "multipart/alternative" (randomBoundary s3)) = 0 :=
      List.count_eq_zero.mpr (hH _ (by simp [specialChunks]))
    have h1 := count_partsChunks
      (boundaryDeclChunk "multipart/alternative" (randomBoundary s3))
      (randomBoundary s3) (envAfterWrite now e).Charset (envAfterWrite now e).Parts
      (fun p hp => hparts _ (by simp [specialChunks]) p hp)
    rw [envChunks_decomp]
    simp [List.count_append, newBoundaryChunks_eq, List.count_cons, beq_iff_eq,
      h0, h1, d3ct, d3cs, d3cr, Ne.symm d13, Ne.symm d23, d3m _, d3e _]
  · -- exactly N alternative marks
    have h0 : (headersChunks (envHeaders (envAfterWrite now e)
        (fd (envAfterWrite now e).Date))).count (markChunk (randomBoundary s3)) = 0 :=
      List.count_eq_zero.mpr (hH _ (by simp [specialChunks]))
    have h1 := count_partsChunks (markChunk (randomBoundary s3))
      (randomBoundary s3) (envAfterWrite now e).Charset (envAfterWrite now e).Parts
      (fun p hp => hparts _ (by simp [specialChunks]) p hp)
    rw [envChunks_decomp]
    simp [List.count_append, newBoundaryChunks_eq, List.count_cons, beq_iff_eq,
      h0, h1, mct _, mcs _, mcr _, Ne.symm (d1m _), Ne.symm (d2m _), Ne.symm (d3m _),
      m31, m32, me _ _ L3 L3, me _ _ L3 L2, me _ _ L3 L1]
    rw [envAfterWrite_Parts]
  · -- the alternative boundary is closed exactly once
    have h0 : (headersChunks (envHeaders (envAfterWrite now e)
        (fd (envAfterWrite now e).Date))).count (endChunk (randomBoundary s3)) = 0 :=
      List.count_eq_zero.mpr (hH _ (by simp [specialChunks]))
    have h1 := count_partsChunks (endChunk (randomBoundary s3))
      (randomBoundary s3) (envAfterWrite now e).Charset (envAfterWrite now e).Parts
      (fun p hp => hparts _ (by simp [specialChunks]) p hp)
    rw [envChunks_decomp]
    simp [List.count_append, newBoundaryChunks_eq, List.count_cons, beq_iff_eq,
      h0, h1, ect _, ecs _, ecr _, Ne.symm (d1e _), Ne.symm (d2e _), Ne.symm (d3e _),
      em _ _ L3 L1, em _ _ L3 L2, em _ _ L3 L3, e32, e31]
  · -- the related boundary is closed exactly once
    have h0 : (headersChunks (envHeaders (envAfterWrite now e)
        (fd (envAfterWrite now e).Date))).count (endChunk (randomBoundary s2)) = 0 :=
      List.count_eq_zero.mpr (hH _ (by simp [specialChunks]))
    have h1 := count_partsChunks (endChunk (randomBoundary s2))
      (randomBoundary s3) (envAfterWrite now e).Charset (envAfterWrite now e).Parts
      (fun p hp => hparts _ (by simp [specialChunks]) p hp)
    rw [envChunks_decomp]
    simp [List.count_append, newBoundaryChunks_eq, List.count_cons, beq_iff_eq,
      h0, h1, ect _, ecs _, ecr _, Ne.symm (d1e _), Ne.symm (d2e _), Ne.symm (d3e _),
      em _ _ L2 L1, em _ _ L2 L2, em _ _ L2 L3, Ne.symm e32, e21]
  · -- the mixed boundary is closed exactly once
    have h0 : (headersChunks (envHeaders (envAfterWrite now e)
        (fd (envAfterWrite now e).Date))).count (endChunk (randomBoundary s1)) = 0 :=
      List.count_eq_zero.mpr (hH _ (by simp [specialChunks]))
    have h1 := count_partsChunks (endChunk (randomBoundary s1))
      (randomBoundary s3) (envAfterWrite now e).Charset (envAfterWrite now e).Parts
      (fun p hp => hparts _ (by simp [specialChunks]) p hp)
    rw [envChunks_decomp]
    simp [List.count_append, newBoundaryChunks_eq, List.count_cons, beq_iff_eq,
      h0, h1, ect _, ecs _, ecr _, Ne.symm (d1e _), Ne.symm (d2e _), Ne.symm (d3e _),
      em _ _ L1 L1, em _ _ L1 L2, em _ _ L1 L3, Ne.symm e31, Ne.symm e21]
  · -- the closes are the final chunks, in reverse order of the opens
    refine ⟨headersChunks (envHeaders (envAfterWrite now e)
        (fd (envAfterWrite now e).Date))
      ++ newBoundaryChunks "multipart/mixed" (randomBoundary s1)
      ++ [markChunk (randomBoundary s1)]
      ++ newBoundaryChunks "multipart/related" (randomBoundary s2)
      ++ [markChunk (randomBoundary s2)]
      ++ newBoundaryChunks "multipart/alternative" (randomBoundary s3)
      ++ partsChunks (randomBoundary s3) (envAfterWrite now e).Charset
          (envAfterWrite now e).Parts, ?_⟩
    rw [envChunks_decomp]

set_option maxRecDepth 40000 in
/-- C4 witness: at concrete distinct seeds and the sample envelope (one
part), the mixed declaration appears once, the alternative mark once per
part, and the mixed close marker once. -/
theorem claim4_witness :
    (envChunks sampleFmtDate 7 seedA seedB seedC sampleEnv).count
        (boundaryDeclChunk "multipart/mixed" (randomBoundary seedA)) = 1 ∧
    (envChunks sampleFmtDate 7 seedA seedB seedC sampleEnv).count
        (markChunk (randomBoundary seedC)) = sampleEnv.Parts.length ∧
    (envChunks sampleFmtDate 7 seedA seedB seedC sampleEnv).count
        (endChunk (randomBoundary seedA)) = 1 := by
  have h := claim4_boundary_structure sampleFmtDate 7 seedA seedB seedC sampleEnv
    (by decide) (by decide) (by decide) (by decide) (by decide) (by decide)
    (by decide) (by decide) (by decide) (by decide) (by decide)
  exact ⟨h.2.2.2.1.1, h.2.2.2.2.1, h.2.2.2.2.2.1.2.2⟩

end Postbox
